import Mathlib

/-
Verification of the voice-bot repository (`src/main.py`): a Telegram bot
that downloads a voice message, transcribes it, extracts vocabulary words,
enriches each word via a text-generation service, and keeps an in-memory
billing ledger.

Modelling conventions:
* Python floats are modelled as exact rationals (ℚ).
* Token counts and durations (integers in the source) are ℕ.
* External calls (file download, transcription, chat completions) are
  modelled by an environment record describing each call's outcome.
* Outgoing `reply_text` calls are modelled as an ordered trace of
  message events (formatting of the message text is presentation only).
-/

/-- Constant `USD_TO_UZS = 20000.2` from `main.py` (USD→UZS exchange rate). -/
def USD_TO_UZS : ℚ := 20000.2

/-- One billing entry as built by `add_billing_entry` in `main.py`:
`{"model", "raw_sum", "sum_uzs", "tokens", "note"}`. -/
structure BillingEntry where
  model : String
  raw_sum : ℚ
  sum_uzs : ℚ
  tokens : ℕ
  note : String

instance : Inhabited BillingEntry := ⟨⟨"", 0, 0, 0, ""⟩⟩

/-- The module-level `billing` dict of `main.py`: the ordered entry list
plus the three running totals. -/
structure BillingState where
  entries : List BillingEntry
  total_raw : ℚ
  total_uzs : ℚ
  total_tokens : ℕ

/-- Initial value of the `billing` dict: no entries, all totals zero. -/
def billing : BillingState :=
  { entries := [], total_raw := 0, total_uzs := 0, total_tokens := 0 }

/-- Embedding of `add_billing_entry(model_name, cost_usd, tokens=0, note="")`:
computes `uzs = cost_usd * USD_TO_UZS`, appends the entry, increments the
three running totals, and returns the entry.  The Python function mutates
the global `billing`; here the updated state is returned alongside. -/
def add_billing_entry (b : BillingState) (model_name : String) (cost_usd : ℚ)
    (tokens : ℕ) (note : String) : BillingState × BillingEntry :=
  let uzs := cost_usd * USD_TO_UZS
  let entry : BillingEntry :=
    { model := model_name, raw_sum := cost_usd, sum_uzs := uzs,
      tokens := tokens, note := note }
  ({ entries := b.entries ++ [entry],
     total_raw := b.total_raw + cost_usd,
     total_uzs := b.total_uzs + uzs,
     total_tokens := b.total_tokens + tokens }, entry)

/-- Arguments of one `add_billing_entry` call. -/
structure BillingCall where
  model : String
  cost : ℚ
  tokens : ℕ
  note : String

/-- Apply a finite sequence of `add_billing_entry` calls from state `b`. -/
def runBillingCalls (b : BillingState) (calls : List BillingCall) : BillingState :=
  calls.foldl (fun s c => (add_billing_entry s c.model c.cost c.tokens c.note).1) b

/-- The ledger invariant: each running total equals the sum of the
corresponding field over all entries. -/
def ledgerInv (b : BillingState) : Prop :=
  b.total_raw = (b.entries.map (fun e => e.raw_sum)).sum ∧
  b.total_uzs = (b.entries.map (fun e => e.sum_uzs)).sum ∧
  b.total_tokens = (b.entries.map (fun e => e.tokens)).sum

theorem add_billing_entry_inv (b : BillingState) (m : String) (c : ℚ) (t : ℕ)
    (n : String) (h : ledgerInv b) : ledgerInv (add_billing_entry b m c t n).1 := by
  obtain ⟨h1, h2, h3⟩ := h
  refine ⟨?_, ?_, ?_⟩ <;> simp [add_billing_entry, h1, h2, h3]

theorem runBillingCalls_inv (calls : List BillingCall) (b : BillingState)
    (h : ledgerInv b) : ledgerInv (runBillingCalls b calls) := by
  induction calls generalizing b with
  | nil => exact h
  | cons c cs ih =>
    exact ih _ (add_billing_entry_inv b c.model c.cost c.tokens c.note h)

theorem runBillingCalls_entries_extend (b : BillingState) (calls : List BillingCall) :
    ∃ t, (runBillingCalls b calls).entries = b.entries ++ t := by
  induction calls generalizing b with
  | nil => exact ⟨[], by simp [runBillingCalls]⟩
  | cons c cs ih =>
    obtain ⟨t, ht⟩ := ih (add_billing_entry b c.model c.cost c.tokens c.note).1
    exact ⟨_ :: t, by simpa [runBillingCalls, add_billing_entry] using ht⟩

/-- C1: starting from the initial empty ledger, after every finite sequence
of `add_billing_entry` calls the running totals `total_raw`, `total_uzs`
and `total_tokens` equal the sums of `raw_sum`, `sum_uzs` and `tokens`
over the entry list; with zero calls all three totals are zero; and
entries are only ever appended (each further call appends exactly its new
entry at the end, and any sequence of calls only extends the list). -/
theorem ledger_totals_invariant :
    (∀ calls : List BillingCall, ledgerInv (runBillingCalls billing calls)) ∧
    ((runBillingCalls billing []).total_raw = 0 ∧
     (runBillingCalls billing []).total_uzs = 0 ∧
     (runBillingCalls billing []).total_tokens = 0) ∧
    (∀ (b : BillingState) (calls : List BillingCall) (c : BillingCall),
      (runBillingCalls b (calls ++ [c])).entries =
        (runBillingCalls b calls).entries ++
          [(add_billing_entry (runBillingCalls b calls)
              c.model c.cost c.tokens c.note).2]) ∧
    (∀ (b : BillingState) (calls : List BillingCall),
      ∃ t, (runBillingCalls b calls).entries = b.entries ++ t) := by
  refine ⟨fun calls => runBillingCalls_inv calls billing ⟨rfl, rfl, rfl⟩,
    ⟨rfl, rfl, rfl⟩, ?_, runBillingCalls_entries_extend⟩
  intro b calls c
  simp [runBillingCalls, List.foldl_append, add_billing_entry]

/-- C4: every entry created by `add_billing_entry` satisfies
`sum_uzs = raw_sum * USD_TO_UZS`, with `USD_TO_UZS = 20000.2`; consequently
every entry reachable in the ledger by any sequence of calls from a state
whose entries already satisfy the relation satisfies it too. -/
theorem entry_uzs_eq_raw_times_rate :
    USD_TO_UZS = 20000.2 ∧
    (∀ (b : BillingState) (m : String) (c : ℚ) (t : ℕ) (n : String),
      (add_billing_entry b m c t n).2.sum_uzs
        = (add_billing_entry b m c t n).2.raw_sum * USD_TO_UZS) ∧
    (∀ (b : BillingState) (calls : List BillingCall),
      (∀ e ∈ b.entries, e.sum_uzs = e.raw_sum * USD_TO_UZS) →
      ∀ e ∈ (runBillingCalls b calls).entries,
        e.sum_uzs = e.raw_sum * USD_TO_UZS) := by
  refine ⟨rfl, fun b m c t n => rfl, ?_⟩
  intro b calls
  induction calls generalizing b with
  | nil => exact fun h => h
  | cons c cs ih =>
    intro h
    refine ih _ ?_
    intro e he
    have he' : e ∈ b.entries ∨ e =
        { model := c.model, raw_sum := c.cost, sum_uzs := c.cost * USD_TO_UZS,
          tokens := c.tokens, note := c.note } := by
      simpa [add_billing_entry] using he
    rcases he' with h1 | rfl
    · exact h e h1
    · rfl

/-- Witness for C4 at a concrete call sequence: the single entry produced
by recording cost 3 satisfies the exchange-rate relation. -/
theorem entry_uzs_eq_raw_times_rate_witness :
    ((runBillingCalls billing [⟨"m", 3, 5, "note"⟩]).entries.headI).sum_uzs
      = ((runBillingCalls billing [⟨"m", 3, 5, "note"⟩]).entries.headI).raw_sum
          * USD_TO_UZS :=
  entry_uzs_eq_raw_times_rate.2.2 billing [⟨"m", 3, 5, "note"⟩]
    (by intro e he; simp [billing] at he)
    _ (by simp [runBillingCalls, add_billing_entry, billing])

/-! ## Vocabulary extraction (`handle_voice`, lines 108–114) -/

/-- Word character of the regex class `\w`, restricted to ASCII text (the
bot requests English transcriptions): a letter, a digit, or underscore. -/
def isWordChar (c : Char) : Bool := c.isAlphanum || c == '_'

/-- Scanner semantics of `re.findall(r'\b\w+\b', s)` over the character
list: collect the maximal runs of word characters, left to right.  `cur`
holds the run in progress, reversed. -/
def findWordRuns (cur : List Char) : List Char → List (List Char)
  | [] => if cur.isEmpty then [] else [cur.reverse]
  | c :: cs =>
    if isWordChar c then findWordRuns (c :: cur) cs
    else if cur.isEmpty then findWordRuns [] cs
    else cur.reverse :: findWordRuns [] cs

/-- Character-wise lowercasing, `text.lower()` for ASCII text. -/
def lowerStr (s : String) : String := ⟨s.data.map Char.toLower⟩

/-- Token list of `re.findall(r'\b\w+\b', text.lower())`. -/
def wordTokens (text : String) : List String :=
  (findWordRuns [] (lowerStr text).data).map (fun cs => (⟨cs⟩ : String))

/-- The dedup loop of `handle_voice` (lines 109–114): keep a token only if
its length exceeds 3 and it was not seen before; passing tokens are added
to `seen` and appended to the output in order. -/
def filterNewWords : List String → List String → List String
  | [], _ => []
  | w :: ws, seen =>
    if 3 < w.length ∧ w ∉ seen then w :: filterNewWords ws (w :: seen)
    else filterNewWords ws seen

/-- The extractor: tokens of the lowercased text, first occurrences only,
length greater than 3. -/
def extractWords (text : String) : List String :=
  filterNewWords (wordTokens text) []

/-- Specification-side deduplication: keep each element's first
occurrence, in order of first appearance. -/
def dedupFirst : List String → List String
  | [] => []
  | w :: ws => w :: dedupFirst (ws.filter (fun x => x ≠ w))
termination_by l => l.length
decreasing_by
  simp only [List.length_cons]
  exact Nat.lt_succ_of_le (List.length_filter_le _ _)

theorem filterNewWords_eq_dedupFirst (ts : List String) (seen : List String) :
    filterNewWords ts seen
      = dedupFirst (ts.filter (fun w => decide (3 < w.length ∧ w ∉ seen))) := by
  induction ts generalizing seen with
  | nil => simp [filterNewWords, dedupFirst]
  | cons w ws ih =>
    by_cases h : 3 < w.length ∧ w ∉ seen
    · rw [filterNewWords, if_pos h]
      rw [List.filter_cons_of_pos (by simpa using h), dedupFirst]
      rw [ih (w :: seen), List.filter_filter]
      congr 1
      congr 1
      apply List.filter_congr
      intro x _
      by_cases hx : x = w
      · subst hx; simp
      · rcases Decidable.em (3 < x.length) with h1 | h1 <;>
          rcases Decidable.em (x ∈ seen) with h2 | h2 <;>
            simp [h1, h2, hx]
    · rw [filterNewWords, if_neg h]
      rw [List.filter_cons_of_neg (by simpa using h)]
      exact ih seen

theorem findWordRuns_splitOnP_aux (cs : List Char) :
    ∃ h t, (cs.splitOnP (fun c => !isWordChar c)) = h :: t ∧
      ∀ acc, findWordRuns acc cs
        = (if acc.reverse ++ h = [] then [] else [acc.reverse ++ h])
            ++ t.filter (fun l => !l.isEmpty) := by
  induction cs with
  | nil =>
    refine ⟨[], [], by simp [List.splitOnP_nil], ?_⟩
    intro acc
    by_cases hacc : acc = []
    · simp [findWordRuns, hacc]
    · simp [findWordRuns, hacc, List.isEmpty_iff]
  | cons c cs' ih =>
    obtain ⟨h, t, hsplit, hrec⟩ := ih
    by_cases hc : isWordChar c
    · refine ⟨c :: h, t, ?_, ?_⟩
      · rw [List.splitOnP_cons, if_neg (by simp [hc]), hsplit]
        rfl
      · intro acc
        rw [findWordRuns, if_pos hc, hrec (c :: acc)]
        simp
    · refine ⟨[], h :: t, ?_, ?_⟩
      · rw [List.splitOnP_cons, if_pos (by simp [hc]), hsplit]
      · intro acc
        rw [findWordRuns, if_neg hc, hrec []]
        by_cases hacc : acc = []
        · subst hacc
          by_cases hh : h = [] <;>
            simp [hh, List.filter_cons, List.isEmpty_iff]
        · by_cases hh : h = [] <;>
            simp [hacc, hh, List.filter_cons, List.isEmpty_iff]


theorem findWordRuns_eq_splitOnP (cs : List Char) :
    findWordRuns [] cs
      = (cs.splitOnP (fun c => !isWordChar c)).filter (fun l => !l.isEmpty) := by
  obtain ⟨h, t, hsplit, hrec⟩ := findWordRuns_splitOnP_aux cs
  rw [hrec [], hsplit]
  by_cases hh : h = [] <;> simp [hh, List.filter_cons, List.isEmpty_iff]

/-- C2: for every input text, the extracted sequence is obtained from the
maximal runs of word (alphanumeric/underscore) characters of the
lowercased text by keeping only tokens of length greater than 3 at their
first occurrence, in order of first appearance; and on the text
"I really enjoyed watching sunsets yesterday" it yields exactly
["really", "enjoyed", "watching", "sunsets", "yesterday"]. -/
theorem extractWords_spec :
    (∀ text : String,
      wordTokens text
        = (((lowerStr text).data.splitOnP (fun c => !isWordChar c)).filter
            (fun l => !l.isEmpty)).map (fun cs => (⟨cs⟩ : String))) ∧
    (∀ text : String,
      extractWords text
        = dedupFirst ((wordTokens text).filter (fun w => decide (3 < w.length)))) ∧
    extractWords "I really enjoyed watching sunsets yesterday"
      = ["really", "enjoyed", "watching", "sunsets", "yesterday"] := by
  refine ⟨?_, ?_, by decide⟩
  · intro text
    rw [wordTokens, findWordRuns_eq_splitOnP]
  · intro text
    rw [extractWords, filterNewWords_eq_dedupFirst]
    congr 1
    apply List.filter_congr
    intro x _
    simp

/-! ## Voice pipeline (`handle_voice`, lines 82–178) -/

/-- Outcome of `json.loads` on a chat-completion response content.
`malformed`: `json.loads` raises (invalid JSON) — the inner `try` catches
it and the loop continues.  `nonDict`: `json.loads` succeeds but yields a
non-dict value, so the following `data.get` call raises an
`AttributeError` (text `errMsg`) that is NOT caught by the inner `try`.
`dict tr df`: a dict whose optional `"translate"` / `"definition"`
entries are `tr` and `df`. -/
inductive JsonOutcome where
  | malformed
  | nonDict (errMsg : String)
  | dict (translate : Option String) (definition : Option String)

/-- One chat-completion response as the pipeline observes it: the parse
outcome of its content, and its usage metrics (`none` when the usage
object is absent, so reading `response.usage.prompt_tokens` raises and
the inner `try ... except: pass` swallows it). -/
structure EnrichResponse where
  parseResult : JsonOutcome
  usage : Option (ℕ × ℕ × ℕ)

/-- Environment of one `handle_voice` run: the outcomes of the external
calls it makes.  `duration` is `voice.duration` (seconds, from the
message metadata).  `responses i` is the i-th chat-completion call. -/
structure VoiceEnv where
  duration : ℕ
  getFileOk : Bool
  downloadOk : Bool
  transcriptionResult : Except String String
  responses : ℕ → EnrichResponse

/-- Messages sent with `reply_text` during a run (text formatting and
HTML markup elided; fields carry the dynamic data of each message). -/
inductive Msg where
  | recognizedText (text : String)
  | whisperBilling (raw uzs : ℚ)
  | wordCard (word translate definition : String)
  | gptBilling (tokens : ℕ) (raw uzs : ℚ)
  | recognitionError (err : String)
  | genericError

/-- A `word_dict` built in the enrichment loop (the spec's
VocabularyWord): surface form, translation, definition. -/
structure WordDict where
  word : String
  translate : String
  definition : String

/-- Accumulators of the `for word in words` loop. -/
structure LoopState where
  word_list : List WordDict
  total_prompt_tokens : ℕ
  total_completion_tokens : ℕ
  total_tokens : ℕ

/-- One loop-body pass for a response whose content parsed as a dict:
build `word_dict` (with "Not found" defaults for missing fields), append
it to `word_list`, then accumulate usage; an absent usage object
contributes nothing (the accumulation `try` swallows the error). -/
def stepWord (s : LoopState) (w : String) (tr df : Option String)
    (usage : Option (ℕ × ℕ × ℕ)) : LoopState :=
  let wd : WordDict := ⟨w, tr.getD "Not found", df.getD "Not found"⟩
  let s' := { s with word_list := s.word_list ++ [wd] }
  match usage with
  | none => s'
  | some (p, c, t) =>
    { s' with total_prompt_tokens := s'.total_prompt_tokens + p,
              total_completion_tokens := s'.total_completion_tokens + c,
              total_tokens := s'.total_tokens + t }

/-- The enrichment loop over the extracted words, with `i` the index of
the next chat-completion call.  Returns the final accumulators and
`some errMsg` when an exception escaped the loop body (a valid-JSON
non-dict response makes `data.get` raise, aborting the loop). -/
def enrichLoop (env : VoiceEnv) :
    List String → ℕ → LoopState → LoopState × Option String
  | [], _, s => (s, none)
  | w :: ws, i, s =>
    match (env.responses i).parseResult with
    | .malformed => enrichLoop env ws (i + 1) s
    | .nonDict errMsg => (s, some errMsg)
    | .dict tr df =>
        enrichLoop env ws (i + 1) (stepWord s w tr df (env.responses i).usage)

/-- Result of one `handle_voice` run: final ledger state, whether the
temporary `.ogg` file still exists, the trace of messages sent, and
whether an exception escaped the handler (to be caught by the
application's `error_handler`). -/
structure RunResult where
  billingState : BillingState
  tempFileExists : Bool
  messages : List Msg
  raised : Bool

/-- Whisper price: 0.006 USD per minute (`main.py` line 104). -/
def whisperPricePerMinute : ℚ := 0.006

/-- GPT input price: 0.40 USD per million tokens (`main.py` line 164). -/
def inputPricePerToken : ℚ := 0.40 / 1000000

/-- GPT output price: 1.60 USD per million tokens (`main.py` line 165). -/
def outputPricePerToken : ℚ := 1.60 / 1000000

/-- Embedding of `handle_voice` for an update that carries a voice
message, from ledger state `b`. -/
def handle_voice (env : VoiceEnv) (b : BillingState) : RunResult :=
  if !env.getFileOk then
    -- `voice.get_file()` raised before the temporary file was created;
    -- the exception escapes the handler.
    { billingState := b, tempFileExists := false, messages := [], raised := true }
  else if !env.downloadOk then
    -- `download_to_drive` raised inside the `with` block: the temporary
    -- file was already created (`delete=False`) and nothing removes it;
    -- the `try`/`finally` below has not been entered yet.
    { billingState := b, tempFileExists := true, messages := [], raised := true }
  else
    match env.transcriptionResult with
    | .error e =>
        -- the `except` branch replies with the raw error text and the
        -- `finally` branch removes the temporary file.
        { billingState := b, tempFileExists := false,
          messages := [.recognitionError e], raised := false }
    | .ok text =>
        let duration_sec := env.duration
        let whisper_cost := (duration_sec : ℚ) / 60 * whisperPricePerMinute
        let whisperAdded := add_billing_entry b "whisper-1" whisper_cost 0
          ("voice duration: " ++ toString duration_sec ++ " seconds")
        let words := extractWords text
        match enrichLoop env words 0 ⟨[], 0, 0, 0⟩ with
        | (_, some errMsg) =>
            -- `AttributeError` escaped the loop into the outer `except`;
            -- word cards and the GPT billing entry are skipped.
            { billingState := whisperAdded.1, tempFileExists := false,
              messages := [.recognizedText text,
                .whisperBilling whisperAdded.2.raw_sum whisperAdded.2.sum_uzs,
                .recognitionError errMsg],
              raised := false }
        | (s, none) =>
            let gpt_cost := (s.total_prompt_tokens : ℚ) * inputPricePerToken
              + (s.total_completion_tokens : ℚ) * outputPricePerToken
            let gptAdded := add_billing_entry whisperAdded.1 "gpt-4.1-mini"
              gpt_cost s.total_tokens "per voice analysis"
            { billingState := gptAdded.1, tempFileExists := false,
              messages := [.recognizedText text,
                  .whisperBilling whisperAdded.2.raw_sum whisperAdded.2.sum_uzs]
                ++ s.word_list.map
                    (fun wd => Msg.wordCard wd.word wd.translate wd.definition)
                ++ [.gptBilling s.total_tokens gptAdded.2.raw_sum gptAdded.2.sum_uzs],
              raised := false }

/-- Application dispatch around `handle_voice`: an exception escaping the
handler is caught by `error_handler`, which replies with the generic
apology message. -/
def dispatchVoice (env : VoiceEnv) (b : BillingState) : RunResult :=
  let r := handle_voice env b
  if r.raised then { r with messages := r.messages ++ [Msg.genericError] } else r

theorem stepWord_usage_some (s : LoopState) (w : String) (tr df : Option String)
    (p c t : ℕ) :
    stepWord s w tr df (some (p, c, t))
      = { word_list := s.word_list ++ [⟨w, tr.getD "Not found", df.getD "Not found"⟩],
          total_prompt_tokens := s.total_prompt_tokens + p,
          total_completion_tokens := s.total_completion_tokens + c,
          total_tokens := s.total_tokens + t } := rfl

theorem stepWord_usage_none (s : LoopState) (w : String) (tr df : Option String) :
    stepWord s w tr df none
      = { s with word_list :=
            s.word_list ++ [⟨w, tr.getD "Not found", df.getD "Not found"⟩] } := rfl

theorem sum_range_shift (g : ℕ → ℕ) (i n : ℕ) :
    (∑ j ∈ Finset.range (n + 1), g (i + j))
      = g i + ∑ j ∈ Finset.range n, g (i + 1 + j) := by
  rw [Finset.sum_range_succ']
  have h1 : ∀ j, g (i + (j + 1)) = g (i + 1 + j) := by
    intro j; congr 1; omega
  simp only [h1, Nat.add_zero]
  omega

theorem enrichLoop_all_dict (env : VoiceEnv) (tr df : ℕ → Option String)
    (p c t : ℕ → ℕ) :
    ∀ (ws : List String) (i : ℕ) (s : LoopState),
      (∀ j, j < ws.length →
        (env.responses (i + j)).parseResult = .dict (tr (i + j)) (df (i + j)) ∧
        (env.responses (i + j)).usage = some (p (i + j), c (i + j), t (i + j))) →
      (enrichLoop env ws i s).2 = none ∧
      (enrichLoop env ws i s).1.total_prompt_tokens
        = s.total_prompt_tokens + ∑ j ∈ Finset.range ws.length, p (i + j) ∧
      (enrichLoop env ws i s).1.total_completion_tokens
        = s.total_completion_tokens + ∑ j ∈ Finset.range ws.length, c (i + j) ∧
      (enrichLoop env ws i s).1.total_tokens
        = s.total_tokens + ∑ j ∈ Finset.range ws.length, t (i + j) := by
  intro ws
  induction ws with
  | nil => intro i s _; simp [enrichLoop]
  | cons w ws' ih =>
    intro i s h
    have h0 := h 0 (by simp)
    simp only [Nat.add_zero] at h0
    have hrest : ∀ j, j < ws'.length →
        (env.responses (i + 1 + j)).parseResult
          = .dict (tr (i + 1 + j)) (df (i + 1 + j)) ∧
        (env.responses (i + 1 + j)).usage
          = some (p (i + 1 + j), c (i + 1 + j), t (i + 1 + j)) := by
      intro j hj
      have := h (j + 1) (by simpa using Nat.succ_lt_succ hj)
      have he : i + (j + 1) = i + 1 + j := by omega
      rwa [he] at this
    have hstep := ih (i + 1) (stepWord s w (tr i) (df i) (env.responses i).usage)
      hrest
    rw [h0.2, stepWord_usage_some] at hstep
    dsimp only at hstep
    simp only [enrichLoop, h0.1, h0.2, stepWord_usage_some]
    refine ⟨hstep.1, ?_, ?_, ?_⟩ <;>
      rw [List.length_cons, sum_range_shift] <;>
      [rw [hstep.2.1]; rw [hstep.2.2.1]; rw [hstep.2.2.2]] <;>
      omega

theorem enrichLoop_all_malformed (env : VoiceEnv) :
    ∀ (ws : List String) (i : ℕ) (s : LoopState),
      (∀ j, j < ws.length → (env.responses (i + j)).parseResult = .malformed) →
      enrichLoop env ws i s = (s, none) := by
  intro ws
  induction ws with
  | nil => intro i s _; rfl
  | cons w ws' ih =>
    intro i s h
    have h0 := h 0 (by simp)
    simp only [Nat.add_zero] at h0
    simp only [enrichLoop, h0]
    exact ih (i + 1) s (by
      intro j hj
      have := h (j + 1) (by simpa using Nat.succ_lt_succ hj)
      have he : i + (j + 1) = i + 1 + j := by omega
      rwa [he] at this)

/-- C5: when the transcription call raises, the run leaves the ledger
unchanged (zero new entries) and the temporary audio file does not exist
after the run ends: the `finally` cleanup executes despite the failure. -/
theorem transcription_failure_atomic (env : VoiceEnv) (b : BillingState) (e : String)
    (hget : env.getFileOk = true) (hdl : env.downloadOk = true)
    (htr : env.transcriptionResult = .error e) :
    (handle_voice env b).billingState = b ∧
    (handle_voice env b).tempFileExists = false := by
  simp [handle_voice, hget, hdl, htr]

/-- Environment with a failing transcription call. -/
def envTranscribeFail : VoiceEnv :=
  ⟨30, true, true, .error "api down", fun _ => ⟨.malformed, none⟩⟩

/-- Witness for C5: a concrete run with a failing transcription call. -/
theorem transcription_failure_atomic_witness :
    (handle_voice envTranscribeFail billing).billingState = billing ∧
    (handle_voice envTranscribeFail billing).tempFileExists = false :=
  transcription_failure_atomic envTranscribeFail billing "api down" rfl rfl rfl

/-- Environment whose `download_to_drive` call fails (after the temporary
file has been created with `delete=False`). -/
def envDownloadFail : VoiceEnv :=
  ⟨30, true, false, .ok "alpha", fun _ => ⟨.malformed, none⟩⟩

/-- Counterexample to C6 as stated: when the write to the temporary
location fails, the user does get the generic error message, but the
partially created temporary file is NOT cleaned up — it still exists
after the run (the `try`/`finally` block was never entered). -/
theorem download_failure_leaves_temp_file :
    (dispatchVoice envDownloadFail billing).tempFileExists = true ∧
    (dispatchVoice envDownloadFail billing).messages = [Msg.genericError] ∧
    (dispatchVoice envDownloadFail billing).billingState.entries = [] :=
  ⟨rfl, rfl, rfl⟩

/-- C6 amended: on a download-step failure the user is shown the generic
error message (via the application's error handler) and the ledger is
unchanged, but the temporary file is removed only in the sense that it
was never created: it exists after the run exactly when the fetch
succeeded and the write failed (that partially-created file leaks). -/
theorem download_failure_behavior (env : VoiceEnv) (b : BillingState)
    (hfail : env.getFileOk = false ∨ env.downloadOk = false) :
    (dispatchVoice env b).messages = [Msg.genericError] ∧
    (dispatchVoice env b).billingState = b ∧
    (dispatchVoice env b).tempFileExists = (env.getFileOk && !env.downloadOk) := by
  rcases hfail with h | h
  · simp [dispatchVoice, handle_voice, h]
  · cases hg : env.getFileOk
    · simp [dispatchVoice, handle_voice, hg]
    · simp [dispatchVoice, handle_voice, hg, h]

/-- Witness for the amended C6 at a concrete failing download. -/
theorem download_failure_behavior_witness :
    (dispatchVoice envDownloadFail billing).messages = [Msg.genericError] ∧
    (dispatchVoice envDownloadFail billing).billingState = billing ∧
    (dispatchVoice envDownloadFail billing).tempFileExists
      = (envDownloadFail.getFileOk && !envDownloadFail.downloadOk) :=
  download_failure_behavior envDownloadFail billing (Or.inr rfl)

/-- C3: on a run where download and transcription succeed and every
enrichment call returns a parseable dict with usage metrics, exactly two
ledger entries are appended, in order: a whisper entry with raw cost
`(duration / 60) * 0.006` (duration from the message metadata), then one
aggregate GPT entry with raw cost
`Σ prompt * (0.40 / 1e6) + Σ completion * (1.60 / 1e6)`, token counts
summed over all per-word calls (billed once per run, not per word). -/
theorem run_bills_two_entries (env : VoiceEnv) (b : BillingState) (text : String)
    (tr df : ℕ → Option String) (p c t : ℕ → ℕ)
    (hget : env.getFileOk = true) (hdl : env.downloadOk = true)
    (htr : env.transcriptionResult = .ok text)
    (hresp : ∀ j, j < (extractWords text).length →
      (env.responses j).parseResult = .dict (tr j) (df j) ∧
      (env.responses j).usage = some (p j, c j, t j)) :
    ∃ ew eg : BillingEntry,
      (handle_voice env b).billingState.entries = b.entries ++ [ew, eg] ∧
      ew.model = "whisper-1" ∧
      ew.raw_sum = (env.duration : ℚ) / 60 * 0.006 ∧
      eg.model = "gpt-4.1-mini" ∧
      eg.raw_sum
        = (∑ j ∈ Finset.range (extractWords text).length, (p j : ℚ))
            * (0.40 / 1000000)
          + (∑ j ∈ Finset.range (extractWords text).length, (c j : ℚ))
            * (1.60 / 1000000) ∧
      eg.tokens = ∑ j ∈ Finset.range (extractWords text).length, t j := by
  obtain ⟨h2, hp, hc, ht2⟩ :=
    enrichLoop_all_dict env tr df p c t (extractWords text) 0 ⟨[], 0, 0, 0⟩
      (by simpa using hresp)
  simp only [Nat.zero_add] at hp hc ht2
  rcases hE : enrichLoop env (extractWords text) 0 ⟨[], 0, 0, 0⟩ with ⟨s, o⟩
  rw [hE] at h2 hp hc ht2
  simp only at h2 hp hc ht2
  subst h2
  simp only [handle_voice, hget, hdl, htr, Bool.not_true, Bool.false_eq_true,
    if_false, hE]
  refine ⟨⟨"whisper-1", (env.duration : ℚ) / 60 * whisperPricePerMinute,
      (env.duration : ℚ) / 60 * whisperPricePerMinute * USD_TO_UZS, 0,
      "voice duration: " ++ toString env.duration ++ " seconds"⟩,
    ⟨"gpt-4.1-mini",
      (s.total_prompt_tokens : ℚ) * inputPricePerToken
        + (s.total_completion_tokens : ℚ) * outputPricePerToken,
      ((s.total_prompt_tokens : ℚ) * inputPricePerToken
        + (s.total_completion_tokens : ℚ) * outputPricePerToken) * USD_TO_UZS,
      s.total_tokens, "per voice analysis"⟩,
    by simp [add_billing_entry], rfl, ?_, rfl, ?_, ?_⟩
  · simp [whisperPricePerMinute]
  · simp only [inputPricePerToken, outputPricePerToken, hp, hc]
    push_cast
    ring
  · simpa using ht2

/-- Environment for a fully successful one-word run: transcript "zero",
every chat call returns a parseable dict with usage (10, 20, 30). -/
def envAllOk : VoiceEnv :=
  ⟨30, true, true, .ok "zero",
   fun _ => ⟨.dict (some "nol") (some "tarif"), some (10, 20, 30)⟩⟩

/-- Witness for C3 at a concrete successful run. -/
theorem run_bills_two_entries_witness :
    ∃ ew eg : BillingEntry,
      (handle_voice envAllOk billing).billingState.entries
        = billing.entries ++ [ew, eg] ∧
      ew.model = "whisper-1" ∧
      ew.raw_sum = (envAllOk.duration : ℚ) / 60 * 0.006 ∧
      eg.model = "gpt-4.1-mini" ∧
      eg.raw_sum
        = (∑ _j ∈ Finset.range (extractWords "zero").length, ((10 : ℕ) : ℚ))
            * (0.40 / 1000000)
          + (∑ _j ∈ Finset.range (extractWords "zero").length, ((20 : ℕ) : ℚ))
            * (1.60 / 1000000) ∧
      eg.tokens = ∑ _j ∈ Finset.range (extractWords "zero").length, 30 :=
  run_bills_two_entries envAllOk billing "zero"
    (fun _ => some "nol") (fun _ => some "tarif")
    (fun _ => 10) (fun _ => 20) (fun _ => 30)
    rfl rfl rfl (fun _j _hj => ⟨rfl, rfl⟩)

/-- C10: on a run where download and transcription succeed but the
extractor produced zero words, or every word's enrichment response failed
JSON parsing (so every word was dropped), the run still appends the GPT
text-generation entry after the whisper entry — with raw cost 0, display
cost 0 and token count 0 — and the zero-cost GPT billing message is still
the last message sent; a successful run always adds exactly two
entries regardless of word count. -/
theorem empty_word_run_still_bills (env : VoiceEnv) (b : BillingState) (text : String)
    (hget : env.getFileOk = true) (hdl : env.downloadOk = true)
    (htr : env.transcriptionResult = .ok text)
    (hresp : ∀ j, j < (extractWords text).length →
      (env.responses j).parseResult = .malformed) :
    ∃ ew eg : BillingEntry,
      (handle_voice env b).billingState.entries = b.entries ++ [ew, eg] ∧
      ew.model = "whisper-1" ∧
      eg.model = "gpt-4.1-mini" ∧
      eg.raw_sum = 0 ∧
      eg.sum_uzs = 0 ∧
      eg.tokens = 0 ∧
      (handle_voice env b).messages.getLast? = some (.gptBilling 0 0 0) := by
  have hE := enrichLoop_all_malformed env (extractWords text) 0 ⟨[], 0, 0, 0⟩
    (by simpa using hresp)
  simp only [handle_voice, hget, hdl, htr, Bool.not_true, Bool.false_eq_true,
    if_false, hE]
  refine ⟨⟨"whisper-1", (env.duration : ℚ) / 60 * whisperPricePerMinute,
      (env.duration : ℚ) / 60 * whisperPricePerMinute * USD_TO_UZS, 0,
      "voice duration: " ++ toString env.duration ++ " seconds"⟩,
    ⟨"gpt-4.1-mini", 0, 0, 0, "per voice analysis"⟩,
    by simp [add_billing_entry], rfl, rfl, rfl, rfl, rfl,
    by simp [add_billing_entry]⟩

/-- Environment with an empty transcript (zero extracted words) and, for
any hypothetical call, a malformed response. -/
def envNoWords : VoiceEnv :=
  ⟨30, true, true, .ok "", fun _ => ⟨.malformed, none⟩⟩

/-- Witness for C10: a run whose transcript yields zero words still adds
the zero-cost GPT entry and sends the zero-cost billing message. -/
theorem empty_word_run_still_bills_witness :
    ∃ ew eg : BillingEntry,
      (handle_voice envNoWords billing).billingState.entries
        = billing.entries ++ [ew, eg] ∧
      ew.model = "whisper-1" ∧
      eg.model = "gpt-4.1-mini" ∧
      eg.raw_sum = 0 ∧
      eg.sum_uzs = 0 ∧
      eg.tokens = 0 ∧
      (handle_voice envNoWords billing).messages.getLast? = some (.gptBilling 0 0 0) :=
  empty_word_run_still_bills envNoWords billing "" rfl rfl rfl (fun _j _hj => rfl)

/-! ## Per-word enrichment behaviour (`handle_voice`, lines 123–152) -/

/-- Environment whose first response parses as a dict that lacks the
`"translate"` field (the `"definition"` field is present). -/
def envNoTranslate : VoiceEnv :=
  ⟨30, true, true, .ok "word", fun _ => ⟨.dict none (some "tarif"), some (1, 2, 3)⟩⟩

/-- Counterexample to C7 as stated: the sentinel the code substitutes is
"Not found" (capital N), not the string "not found": a response missing
the translation field yields a word whose translation is "Not found",
which differs from "not found". -/
theorem missing_translation_sentinel_differs :
    ((enrichLoop envNoTranslate ["word"] 0 ⟨[], 0, 0, 0⟩).1.word_list.map
        (fun wd => wd.translate)) = ["Not found"] ∧
    ((enrichLoop envNoTranslate ["word"] 0 ⟨[], 0, 0, 0⟩).1.word_list.map
        (fun wd => wd.definition)) = ["tarif"] ∧
    "Not found" ≠ "not found" :=
  ⟨rfl, rfl, by decide⟩

/-- C7 amended: a response that parses as a dict but lacks the
translation (resp. definition) field yields a word dict that substitutes
the sentinel "Not found" (capital N) for the missing field while keeping
the other field's value; the word is appended, not dropped, and the loop
continues with the next word. -/
theorem missing_field_fallback (env : VoiceEnv) (w : String) (ws : List String)
    (i : ℕ) (s : LoopState) (tr df : Option String)
    (hp : (env.responses i).parseResult = .dict tr df) :
    enrichLoop env (w :: ws) i s
      = enrichLoop env ws (i + 1) (stepWord s w tr df (env.responses i).usage) ∧
    (∀ (s2 : LoopState) (w2 dv : String) (u : Option (ℕ × ℕ × ℕ)),
      (stepWord s2 w2 none (some dv) u).word_list
        = s2.word_list ++ [⟨w2, "Not found", dv⟩]) ∧
    (∀ (s2 : LoopState) (w2 tv : String) (u : Option (ℕ × ℕ × ℕ)),
      (stepWord s2 w2 (some tv) none u).word_list
        = s2.word_list ++ [⟨w2, tv, "Not found"⟩]) := by
  refine ⟨by simp [enrichLoop, hp], ?_, ?_⟩ <;>
  · intro s2 w2 v u
    rcases u with _ | ⟨up, uc, ut⟩ <;> rfl

/-- Witness for the amended C7 at the concrete environment whose response
lacks the translation field. -/
theorem missing_field_fallback_witness :
    enrichLoop envNoTranslate ["word", "next"] 0 ⟨[], 0, 0, 0⟩
      = enrichLoop envNoTranslate ["next"] 1
          (stepWord ⟨[], 0, 0, 0⟩ "word" none (some "tarif")
            (envNoTranslate.responses 0).usage) ∧
    (∀ (s2 : LoopState) (w2 dv : String) (u : Option (ℕ × ℕ × ℕ)),
      (stepWord s2 w2 none (some dv) u).word_list
        = s2.word_list ++ [⟨w2, "Not found", dv⟩]) ∧
    (∀ (s2 : LoopState) (w2 tv : String) (u : Option (ℕ × ℕ × ℕ)),
      (stepWord s2 w2 (some tv) none u).word_list
        = s2.word_list ++ [⟨w2, tv, "Not found"⟩]) :=
  missing_field_fallback envNoTranslate "word" ["next"] 0 ⟨[], 0, 0, 0⟩
    none (some "tarif") rfl

/-- Environment with a two-word transcript whose first chat response is
valid JSON but not a dict (e.g. a bare number), so `data.get` raises. -/
def envNonDict : VoiceEnv :=
  ⟨30, true, true, .ok "alpha beta",
   fun i => if i = 0 then
        ⟨.nonDict "int object has no attribute get", some (1, 1, 2)⟩
      else ⟨.dict (some "x") (some "y"), some (1, 1, 2)⟩⟩

/-- Counterexample to C8 as stated: a response that cannot be parsed as
the expected structured object but IS valid JSON (a non-dict value)
aborts the whole run instead of being dropped: the loop stops before the
second word, the user sees the recognition-error message, no word cards
are sent, and only the whisper entry (not the GPT entry) is appended. -/
theorem nondict_response_aborts_run :
    extractWords "alpha beta" = ["alpha", "beta"] ∧
    enrichLoop envNonDict ["alpha", "beta"] 0 ⟨[], 0, 0, 0⟩
      = (⟨[], 0, 0, 0⟩, some "int object has no attribute get") ∧
    (handle_voice envNonDict billing).billingState.entries.length = 1 ∧
    (handle_voice envNonDict billing).messages.getLast?
      = some (Msg.recognitionError "int object has no attribute get") :=
  ⟨by decide, rfl, rfl, rfl⟩

/-- C8 amended: a word whose enrichment response fails JSON parsing
(`json.loads` raises) is dropped silently — no ledger effect, no message
— and the loop continues with the subsequent words; but a response that
parses as JSON without being a dict escapes the inner `try` and aborts
the run. -/
theorem malformed_json_word_dropped (env : VoiceEnv) (w : String)
    (ws : List String) (i : ℕ) (s : LoopState)
    (hp : (env.responses i).parseResult = .malformed) :
    enrichLoop env (w :: ws) i s = enrichLoop env ws (i + 1) s := by
  simp [enrichLoop, hp]

/-- Environment whose every chat response is malformed JSON. -/
def envAllMalformed : VoiceEnv :=
  ⟨30, true, true, .ok "alpha beta", fun _ => ⟨.malformed, none⟩⟩

/-- Witness for the amended C8: dropping the first word of a two-word
batch and continuing with the second. -/
theorem malformed_json_word_dropped_witness :
    enrichLoop envAllMalformed ["alpha", "beta"] 0 ⟨[], 0, 0, 0⟩
      = enrichLoop envAllMalformed ["beta"] 1 ⟨[], 0, 0, 0⟩ :=
  malformed_json_word_dropped envAllMalformed "alpha" ["beta"] 0 ⟨[], 0, 0, 0⟩ rfl

/-- C9: a call whose response lacks a usable usage object contributes
exactly zero to the accumulated prompt, completion and total token
counters (the word itself is still appended), and the loop continues
with the next word instead of aborting. -/
theorem missing_usage_contributes_zero (env : VoiceEnv) (w : String)
    (ws : List String) (i : ℕ) (s : LoopState) (tr df : Option String)
    (hp : (env.responses i).parseResult = .dict tr df)
    (hu : (env.responses i).usage = none) :
    enrichLoop env (w :: ws) i s
      = enrichLoop env ws (i + 1) (stepWord s w tr df none) ∧
    (stepWord s w tr df none).total_prompt_tokens = s.total_prompt_tokens ∧
    (stepWord s w tr df none).total_completion_tokens
      = s.total_completion_tokens ∧
    (stepWord s w tr df none).total_tokens = s.total_tokens ∧
    (stepWord s w tr df none).word_list
      = s.word_list ++ [⟨w, tr.getD "Not found", df.getD "Not found"⟩] := by
  refine ⟨?_, rfl, rfl, rfl, rfl⟩
  simp [enrichLoop, hp, hu]

/-- Environment whose chat responses parse but carry no usage object. -/
def envNoUsage : VoiceEnv :=
  ⟨30, true, true, .ok "alpha", fun _ => ⟨.dict (some "a") (some "b"), none⟩⟩

/-- Witness for C9 at a concrete no-usage response. -/
theorem missing_usage_contributes_zero_witness :
    enrichLoop envNoUsage ["alpha", "beta"] 0 ⟨[], 0, 0, 0⟩
      = enrichLoop envNoUsage ["beta"] 1
          (stepWord ⟨[], 0, 0, 0⟩ "alpha" (some "a") (some "b") none) ∧
    (stepWord ⟨[], 0, 0, 0⟩ "alpha" (some "a") (some "b")
        none).total_prompt_tokens = (0 : ℕ) ∧
    (stepWord ⟨[], 0, 0, 0⟩ "alpha" (some "a") (some "b")
        none).total_completion_tokens = (0 : ℕ) ∧
    (stepWord ⟨[], 0, 0, 0⟩ "alpha" (some "a") (some "b")
        none).total_tokens = (0 : ℕ) ∧
    (stepWord ⟨[], 0, 0, 0⟩ "alpha" (some "a") (some "b") none).word_list
      = [] ++ [⟨"alpha", (some "a").getD "Not found", (some "b").getD "Not found"⟩] :=
  missing_usage_contributes_zero envNoUsage "alpha" ["beta"] 0 ⟨[], 0, 0, 0⟩
    (some "a") (some "b") rfl rfl
